import Mathlib

/-!
Verification development for the arcade game in survive.py.

The game code is shallowly embedded: every entity class (Player, Enemy,
Bullet, DeathParticles) and the Game orchestrator are translated into
executable Lean definitions over exact rational arithmetic (the source uses
Python floats; no claim depends on float rounding).  External black boxes —
the physics engine step, keyboard/mouse polling and the random number
generator — are modelled as explicit inputs.  Python exceptions
(list.remove on a missing element raises ValueError) are modelled with
Except.  Python object identity, used by list.remove, is modelled by an id
field; removal takes the first occurrence, exactly as list.remove does.

Python for-loops that mutate the list being iterated (Game.update's bullet
loop, verify_bullet_hit_enemies' enemy loop, the particle-emitter loop)
are embedded as index-based loops: the iterator keeps a position counter,
so removing the current element shifts the successor into the current slot
and the successor is skipped.  DeathParticles.update iterates over a copy
of its particle list, so it is a plain map/filter.
-/

/-- Planar vector with rational components, standing in for easymunk Vec2d. -/
structure Vec2 where
  x : ℚ
  y : ℚ
deriving DecidableEq

instance : Add Vec2 := ⟨fun a b => ⟨a.x + b.x, a.y + b.y⟩⟩

theorem Vec2.add_def (a b : Vec2) : a + b = ⟨a.x + b.x, a.y + b.y⟩ := rfl

/-- Negation of a vector, used to flip a contact normal to the other body. -/
def Vec2.neg (v : Vec2) : Vec2 := ⟨-v.x, -v.y⟩

/-- Collision tags, from class ColType (survive.py lines 30-34). -/
inductive ColType where
  | PLAYER
  | ENEMY
  | TARGET
  | BULLET
deriving DecidableEq

/-- Game states, from class GameState (survive.py lines 37-40). -/
inductive GameState where
  | RUNNING
  | GAME_OVER
  | HAS_WON
deriving DecidableEq

/-- A physics shape as seen by a collision callback: an identity and the
collision tag it was created with. -/
structure ShapeM where
  id : Nat
  collision_type : ColType
deriving DecidableEq

/-- Contact descriptor delivered by the physics engine to a begin-collision
callback: the two shapes and the contact normal measured relative to
shape_a.  normal_from flips the normal when asked relative to the other
shape, which is how arb.normal_from(body) behaves. -/
structure ArbiterM where
  shape_a : ShapeM
  shape_b : ShapeM
  normal_a : Vec2

/-- Contact normal measured relative to the given shape. -/
def ArbiterM.normal_from (arb : ArbiterM) (s : ShapeM) : Vec2 :=
  if s.id = arb.shape_a.id then arb.normal_a else arb.normal_a.neg

/-- Observable effect of the Enemy begin-collision callback: either a shape
is removed from the physics space, or the "hit_player" message is sent. -/
inductive BeginAction where
  | removeFromSpace (s : ShapeM)
  | sendHitPlayer
deriving DecidableEq

/-- Shape selection of Enemy.register's begin callback (survive.py lines
209-213), including the source's `player, enemy = shape_b, shape_b`
assignment in the branch where shape_a is not the player. -/
def Enemy.beginSelect (arb : ArbiterM) : ShapeM × ShapeM :=
  if arb.shape_a.collision_type = ColType.PLAYER then
    (arb.shape_a, arb.shape_b)
  else
    (arb.shape_b, arb.shape_b)

/-- Enemy.register's begin callback (survive.py lines 207-221): select
player and enemy shapes, compute the normal relative to the player; when
its y-component is below 0.25 remove the selected enemy shape from the
space, otherwise send "hit_player". -/
def Enemy.beginCollision (arb : ArbiterM) : BeginAction :=
  let player := (Enemy.beginSelect arb).1
  let enemy := (Enemy.beginSelect arb).2
  let n := arb.normal_from player
  if n.y < 1/4 then BeginAction.removeFromSpace enemy
  else BeginAction.sendHitPlayer

/-- Player.SPEED (survive.py line 95). -/
def Player.SPEED : ℚ := 90

/-- Player.JUMP_SPEED (survive.py line 96). -/
def Player.JUMP_SPEED : ℚ := 120

/-- Player body state: position, velocity, accumulated force, mass and the
grounded flag maintained by the collision callbacks. -/
structure PlayerM where
  pos : Vec2
  vel : Vec2
  force : Vec2
  mass : ℚ
  can_jump : Bool
deriving DecidableEq

/-- Keyboard sampling for one frame: btn(KEY_A), btn(KEY_D) and the
fresh-press btnp(KEY_W). -/
structure KeyInput where
  keyA : Bool
  keyD : Bool
  keyWp : Bool
deriving DecidableEq

/-- Player.update (survive.py lines 110-133): accumulate the manual
downward force, set horizontal speed from held keys (full speed when
grounded, half speed airborne, decay 0.5 grounded / 1.0 airborne with no
input), then apply the jump impulse when grounded and W freshly pressed. -/
def Player.update (inp : KeyInput) (p : PlayerM) : PlayerM :=
  let force := p.force + ⟨0, -(p.mass * 200)⟩
  let v := p.vel
  let v1 : Vec2 :=
    if inp.keyA then
      if p.can_jump then ⟨-Player.SPEED, v.y⟩ else ⟨-(Player.SPEED / 2), v.y⟩
    else if inp.keyD then
      if p.can_jump then ⟨Player.SPEED, v.y⟩ else ⟨Player.SPEED / 2, v.y⟩
    else
      let r : ℚ := if p.can_jump then 1/2 else 1
      ⟨v.x * r, v.y⟩
  let v2 : Vec2 := if p.can_jump && inp.keyWp then ⟨v1.x, Player.JUMP_SPEED⟩ else v1
  { p with force := force, vel := v2 }

/-- Bullet.life_time class attribute (survive.py line 59). -/
def Bullet.LIFE_TIME : Int := 150

/-- Bullet state: identity, position, velocity and remaining lifetime.  The
velocity direction is cos/sin of the angle to the target computed in
Bullet.__init__; since the trigonometric values are irrational they enter
the model as a given direction vector. -/
structure BulletM where
  id : Nat
  pos : Vec2
  vel : Vec2
  life_time : Int
deriving DecidableEq

/-- Bullet construction (survive.py lines 61-75) with the direction vector
supplied (cos/sin of atan2 to the target). -/
def Bullet.create (bid : Nat) (pos dir : Vec2) : BulletM :=
  { id := bid, pos := pos, vel := dir, life_time := Bullet.LIFE_TIME }

/-- Bullet.update (survive.py lines 77-84): integrate position, decrement
life_time; the returned flag records whether del_bullet was invoked
(life_time dropped below 0). -/
def Bullet.updateM (b : BulletM) : BulletM × Bool :=
  let b2 := { b with pos := b.pos + b.vel, life_time := b.life_time - 1 }
  (b2, decide (b2.life_time < 0))

/-- State of a bullet after n calls to Bullet.update (ignoring removal). -/
def Bullet.iter (b : BulletM) : Nat → BulletM
  | 0 => b
  | n + 1 => (Bullet.updateM (Bullet.iter b n)).1

/-- Enemy state: identity, position, radius and remaining lives (class
attribute lives = 4, survive.py line 160). -/
structure EnemyM where
  id : Nat
  pos : Vec2
  radius : ℚ
  lives : Int
deriving DecidableEq

/-- Squared-distance hit test of Game.verify_bullet_hit_enemies
(survive.py lines 413-420): dx^2 + dy^2 <= radius^2. -/
def hitTest (bpos : Vec2) (e : EnemyM) : Bool :=
  decide ((bpos.x - e.pos.x) ^ 2 + (bpos.y - e.pos.y) ^ 2 ≤ e.radius ^ 2)

/-- DeathParticles.MAX_DURATION (survive.py line 225). -/
def DeathParticles.MAX_DURATION : ℚ := 30

/-- DeathParticles.MAX_GENERATED (survive.py line 226). -/
def DeathParticles.MAX_GENERATED : Nat := 100

/-- One emitted particle.  Only the residual duration is observable by the
game logic; position and velocity feed rendering only, and the random
velocity turbulence applied each frame is therefore not tracked. -/
structure ParticleM where
  duration : ℚ
deriving DecidableEq

/-- DeathParticles emitter state (survive.py lines 228-234): identity (for
list.remove), particle list, nominal duration and the generated counter. -/
structure DeathParticlesM where
  id : Nat
  particles : List ParticleM
  duration : ℚ
  generated : Nat
deriving DecidableEq

/-- DeathParticles.__init__ (survive.py lines 228-234). -/
def DeathParticles.init (did : Nat) : DeathParticlesM :=
  { id := did, particles := [], duration := DeathParticles.MAX_DURATION, generated := 0 }

/-- DeathParticles.keep_generating (survive.py lines 259-261). -/
def DeathParticlesM.keep_generating (d : DeathParticlesM) : Bool :=
  decide (d.generated < DeathParticles.MAX_GENERATED)

/-- DeathParticles.emmit (survive.py lines 275-292): no-op once the cap is
reached, otherwise increment generated and append one particle whose
duration is self.duration minus an exponentially distributed draw
(supplied as input expo). -/
def DeathParticlesM.emmit (expo : ℚ) (d : DeathParticlesM) : DeathParticlesM :=
  if ¬ d.keep_generating then d
  else
    { d with
      generated := d.generated + 1,
      particles := d.particles ++ [⟨d.duration - expo⟩] }

/-- DeathParticles.generate_particles (survive.py lines 263-273): return
early once the cap is reached, otherwise emmit batch_size times; the k-th
emission consumes the random draw expo k. -/
def DeathParticlesM.generate_particles (batch_size : Nat) (expo : Nat → ℚ)
    (d : DeathParticlesM) : DeathParticlesM :=
  if ¬ d.keep_generating then d
  else (List.range batch_size).foldl (fun acc k => acc.emmit (expo k)) d

/-- One call to DeathParticles.update (survive.py lines 236-243) as far as
the particle list is concerned: every particle's duration drops by 1 and
particles at duration <= 0 are removed (iteration is over a copy of the
list, so no element is skipped).  The random velocity rotation only
affects rendering and is not tracked.  The caller handles the remove_me
callback fired when the list empties. -/
def DeathParticlesM.updateParticles (d : DeathParticlesM) : DeathParticlesM :=
  { d with
    particles :=
      (d.particles.map (fun p => ⟨p.duration - 1⟩)).filter
        (fun p => decide (0 < p.duration)) }

/-- A call against a DeathParticles emitter: either a single emmit with its
random draw, or a generate_particles with a batch size and its stream of
random draws. -/
inductive DPCall where
  | emmitC (expo : ℚ)
  | generateC (batch_size : Nat) (expo : Nat → ℚ)

/-- Run a sequence of emmit / generate_particles calls against an emitter. -/
def DeathParticlesM.runCalls (d : DeathParticlesM) : List DPCall → DeathParticlesM
  | [] => d
  | DPCall.emmitC e :: rest => (d.emmit e).runCalls rest
  | DPCall.generateC n expo :: rest => (d.generate_particles n expo).runCalls rest

/-- Removal of the first matching element, the behavior of Python
list.remove (with object identity encoded in the predicate). -/
def removeFirst (p : α → Bool) : List α → List α
  | [] => []
  | a :: as => if p a then as else a :: removeFirst p as

theorem removeFirst_length_le (p : α → Bool) (l : List α) :
    (removeFirst p l).length ≤ l.length := by
  induction l with
  | nil => simp [removeFirst]
  | cons a as ih =>
    rw [removeFirst]
    by_cases hp : p a
    · simp [hp]
    · simp only [hp, if_neg, Bool.false_eq_true, not_false_iff, List.length_cons]
      omega

theorem removeFirst_length_of_any (p : α → Bool) (l : List α) (h : l.any p = true) :
    (removeFirst p l).length + 1 = l.length := by
  induction l with
  | nil => simp at h
  | cons a as ih =>
    by_cases hp : p a
    · simp [removeFirst, hp]
    · have hs : as.any p = true := by
        rcases List.any_eq_true.mp h with ⟨b, hb, hpb⟩
        rcases List.mem_cons.mp hb with rfl | hb
        · exact absurd hpb (by simpa using hp)
        · exact List.any_eq_true.mpr ⟨b, hb, hpb⟩
      rw [removeFirst]
      simp only [hp, if_neg, Bool.false_eq_true, not_false_iff, List.length_cons]
      have := ih hs
      omega

/-- Full game state owned by the Game orchestrator: the state enum, the
player and the three entity lists (survive.py lines 312-330).  nextId is
the identity supply standing in for Python object identity.  The physics
space itself (static scenery, the camera) lives in the external engine. -/
structure GameM where
  state : GameState
  player : PlayerM
  enemies : List EnemyM
  bullets : List BulletM
  particles : List DeathParticlesM
  nextId : Nat
deriving DecidableEq

/-- Game.message with Game.handle_hit_player (survive.py lines 356-364):
only the "hit_player" message has a handler, which sets state to
GAME_OVER; unknown messages are merely logged. -/
def Game.message (msg : String) (g : GameM) : GameM :=
  if msg = "hit_player" then { g with state := GameState.GAME_OVER } else g

/-- Game.del_bullet (survive.py lines 438-439): self.bullets.remove(b).
Python list.remove raises ValueError when the element is absent, hence the
Except result. -/
def Game.del_bullet (bId : Nat) (bs : List BulletM) : Except Unit (List BulletM) :=
  if bs.any (fun b => b.id == bId) then
    Except.ok (removeFirst (fun b => b.id == bId) bs)
  else Except.error ()

theorem Game.del_bullet_ok {bId : Nat} {bs bs2 : List BulletM}
    (h : Game.del_bullet bId bs = Except.ok bs2) : bs2.length + 1 = bs.length := by
  by_cases ha : bs.any (fun b => b.id == bId) = true
  · rw [Game.del_bullet, if_pos ha] at h
    cases h
    exact removeFirst_length_of_any _ _ ha
  · rw [Game.del_bullet, if_neg ha] at h
    cases h

/-- Game.del_enemy (survive.py lines 441-448): unlink the enemy from the
list (and the physics space), then create a DeathParticles emitter, run
generate_particles at the enemy's position with the default batch size of
100, and append the emitter.  expo supplies the random expovariate draws
for the emitted particles; emitted positions and velocities are random
inputs that the game logic never reads back. -/
def Game.del_enemy (eid : Nat) (expo : Nat → ℚ) (g : GameM) : GameM :=
  { g with
    enemies := removeFirst (fun e => e.id == eid) g.enemies,
    particles :=
      g.particles ++ [(DeathParticles.init g.nextId).generate_particles 100 expo],
    nextId := g.nextId + 1 }

theorem enemies_set_any_id (l : List EnemyM) (i : Nat) (h : i < l.length) (x : EnemyM)
    (hx : x.id = l[i].id) :
    (l.set i x).any (fun e => e.id == l[i].id) = true := by
  have hi : i < (l.set i x).length := by simpa using h
  refine List.any_eq_true.mpr ⟨x, ?_, by simp [hx]⟩
  have hm := List.getElem_mem hi
  rwa [List.getElem_set_self] at hm

/-- Iteration of Game.verify_bullet_hit_enemies (survive.py lines 412-425)
from enemy index i: Python iterates `for e in self.enemies` while the loop
body may remove the current enemy from that same list, so the iterator is
an index counter into the live list.  On a hit the bullet is removed
(raising when already removed), the enemy loses a life, and at lives <= 0
del_enemy unlinks it.  The draw stream expo is keyed by the dying enemy's
id. -/
def Game.verifyLoop (bpos : Vec2) (bId : Nat) (expo : Nat → Nat → ℚ) (i : Nat)
    (g : GameM) : Except Unit GameM :=
  if h : i < g.enemies.length then
    let e := g.enemies[i]
    if hitTest bpos e then
      match Game.del_bullet bId g.bullets with
      | Except.error u => Except.error u
      | Except.ok bs =>
        let e2 : EnemyM := { e with lives := e.lives - 1 }
        if e2.lives ≤ 0 then
          Game.verifyLoop bpos bId expo (i + 1)
            (Game.del_enemy e2.id (expo e2.id)
              { g with bullets := bs, enemies := g.enemies.set i e2 })
        else
          Game.verifyLoop bpos bId expo (i + 1)
            { g with bullets := bs, enemies := g.enemies.set i e2 }
    else
      Game.verifyLoop bpos bId expo (i + 1) g
  else Except.ok g
termination_by g.enemies.length - i
decreasing_by
  · have key := removeFirst_length_of_any (fun e => e.id == g.enemies[i].id)
      (g.enemies.set i { g.enemies[i] with lives := g.enemies[i].lives - 1 })
      (enemies_set_any_id g.enemies i h
        { g.enemies[i] with lives := g.enemies[i].lives - 1 } rfl)
    simp only [Game.del_enemy, List.length_set] at key ⊢
    omega
  · simp only [List.length_set]
    omega
  · omega

/-- Game.verify_bullet_hit_enemies (survive.py lines 412-425), reading the
bullet's current position. -/
def Game.verify_bullet_hit_enemies (b : BulletM) (expo : Nat → Nat → ℚ)
    (g : GameM) : Except Unit GameM :=
  Game.verifyLoop b.pos b.id expo 0 g

theorem Game.verifyLoop_bullets_le (bpos : Vec2) (bId : Nat) (expo : Nat → Nat → ℚ) :
    ∀ (i : Nat) (g : GameM), ∀ g2, Game.verifyLoop bpos bId expo i g = Except.ok g2 →
      g2.bullets.length ≤ g.bullets.length := by
  intro i g
  induction i, g using Game.verifyLoop.induct bpos bId expo with
  | case1 i g h e hhit u hdel =>
    intro g2 hrun
    rw [Game.verifyLoop] at hrun
    have hhit2 : hitTest bpos g.enemies[i] = true := hhit
    simp [dif_pos h, hhit2, hdel] at hrun
  | case2 i g h e hhit bs hdel e2 hle ih =>
    intro g2 hrun
    rw [Game.verifyLoop] at hrun
    have hhit2 : hitTest bpos g.enemies[i] = true := hhit
    have hle2 : g.enemies[i].lives - 1 ≤ 0 := hle
    simp [dif_pos h, hhit2, hdel, hle2] at hrun
    have h1 : g2.bullets.length ≤ bs.length := ih g2 hrun
    have h2 := Game.del_bullet_ok hdel
    omega
  | case3 i g h e hhit bs hdel e2 hgt ih =>
    intro g2 hrun
    rw [Game.verifyLoop] at hrun
    have hhit2 : hitTest bpos g.enemies[i] = true := hhit
    have hgt2 : ¬ g.enemies[i].lives - 1 ≤ 0 := hgt
    simp [dif_pos h, hhit2, hdel, hgt2] at hrun
    have h1 : g2.bullets.length ≤ bs.length := ih g2 hrun
    have h2 := Game.del_bullet_ok hdel
    omega
  | case4 i g h e hmiss ih =>
    intro g2 hrun
    rw [Game.verifyLoop] at hrun
    have hmiss2 : ¬ hitTest bpos g.enemies[i] = true := hmiss
    simp [dif_pos h, hmiss2] at hrun
    exact ih g2 hrun
  | case5 i g h =>
    intro g2 hrun
    rw [Game.verifyLoop] at hrun
    simp only [dif_neg h] at hrun
    cases hrun
    exact le_refl _

theorem Game.verify_bullets_le (b : BulletM) (expo : Nat → Nat → ℚ) (g g2 : GameM)
    (h : Game.verify_bullet_hit_enemies b expo g = Except.ok g2) :
    g2.bullets.length ≤ g.bullets.length :=
  Game.verifyLoop_bullets_le b.pos b.id expo 0 g g2 h

/-- Iteration of Game.update's bullet loop (survive.py lines 399-401):
Python iterates `for b in self.bullets` while b.update() may remove b from
that same list (lifetime expiry) and verify_bullet_hit_enemies may remove
it again (hit), so the iterator is an index counter into the live list.
Each iteration runs b.update() — move, decrement, del_bullet on expiry
(which raises if b is already gone) — and then
verify_bullet_hit_enemies(b). -/
def Game.bulletsLoop (expo : Nat → Nat → ℚ) (i : Nat) (g : GameM) : Except Unit GameM :=
  if h : i < g.bullets.length then
    let b := (Bullet.updateM g.bullets[i]).1
    match hdel : (if (Bullet.updateM g.bullets[i]).2 then
        Game.del_bullet b.id (g.bullets.set i b)
      else Except.ok (g.bullets.set i b)) with
    | Except.error u => Except.error u
    | Except.ok bs =>
      match hver : Game.verify_bullet_hit_enemies b expo { g with bullets := bs } with
      | Except.error u => Except.error u
      | Except.ok g3 => Game.bulletsLoop expo (i + 1) g3
  else Except.ok g
termination_by g.bullets.length - i
decreasing_by
  have hbs : bs.length ≤ g.bullets.length := by
    by_cases hc : (Bullet.updateM g.bullets[i]).2 = true
    · rw [dif_pos hc] at hdel
      have := Game.del_bullet_ok hdel
      simp only [List.length_set] at this
      omega
    · rw [dif_neg hc] at hdel
      cases hdel
      simp
  have h3 : g3.bullets.length ≤ bs.length := by
    have := Game.verify_bullets_le _ expo _ g3 hver
    simpa using this
  omega

/-- A DeathParticles emitter placed at index i of the live list matches a
removal keyed by its own id. -/
theorem dp_set_any_own_id (l : List DeathParticlesM) (i : Nat) (h : i < l.length)
    (x : DeathParticlesM) : (l.set i x).any (fun q => q.id == x.id) = true := by
  have hi : i < (l.set i x).length := by simpa using h
  refine List.any_eq_true.mpr ⟨x, ?_, by simp⟩
  have hm := List.getElem_mem hi
  rwa [List.getElem_set_self] at hm

/-- Iteration of Game.update's particle-emitter loop (survive.py lines
403-404): each emitter's update() ages its particles; when its particle
list has emptied it calls remove_me, i.e. Game.remove_death_particle
(survive.py lines 450-451), unlinking the emitter from the list being
iterated (index semantics again). -/
def Game.particlesLoop (i : Nat) (g : GameM) : GameM :=
  if h : i < g.particles.length then
    let d := (g.particles[i]).updateParticles
    if d.particles.isEmpty then
      Game.particlesLoop (i + 1)
        { g with particles := removeFirst (fun q => q.id == d.id) (g.particles.set i d) }
    else
      Game.particlesLoop (i + 1) { g with particles := g.particles.set i d }
  else g
termination_by g.particles.length - i
decreasing_by
  · have key := removeFirst_length_of_any
      (fun q => q.id == ((g.particles[i]).updateParticles).id)
      (g.particles.set i ((g.particles[i]).updateParticles))
      (dp_set_any_own_id g.particles i h _)
    simp only [List.length_set] at key
    omega
  · simp only [List.length_set]
    omega

/-- Game.MAX_BULLETS (survive.py line 317). -/
def Game.MAX_BULLETS : Nat := 10

/-- Game.shoot_bullet (survive.py lines 427-436): refuse only when
len(bullets) > MAX_BULLETS, else append a freshly constructed bullet at
the player's position.  The aim direction (cos/sin of the angle to the
corrected mouse position) is an input; correct_mouse_distance itself only
feeds that angle. -/
def Game.shoot_bullet (dir : Vec2) (g : GameM) : GameM :=
  if g.bullets.length > Game.MAX_BULLETS then g
  else
    { g with
      bullets := g.bullets ++ [Bullet.create g.nextId g.player.pos dir],
      nextId := g.nextId + 1 }

/-- External per-frame inputs: the physics step's effect on the bodies it
owns (the player body, each enemy body keyed by id; bullets are never
added to the space — Bullet.register is a no-op), the messages emitted by
collision callbacks during the step, the keyboard/mouse sampling, the shot
direction and the random draw streams. -/
structure FrameInput where
  stepPlayer : PlayerM → PlayerM
  stepEnemyPos : Nat → Vec2 → Vec2
  stepMsgs : List String
  keys : KeyInput
  mouseLeftP : Bool
  shootDir : Vec2
  expo : Nat → Nat → ℚ

/-- Delivery of the messages sent by collision callbacks during a physics
step, in order, through Game.message. -/
def Game.foldMsgs (msgs : List String) (g : GameM) : GameM :=
  msgs.foldl (fun acc m => Game.message m acc) g

/-- Physics step of Game.update (survive.py line 391): the engine
integrates the bodies it owns (the player body and the enemy bodies; the
bullets were never added to the space) and runs collision callbacks,
which deliver messages through Game.message. -/
def Game.stepPhase (inp : FrameInput) (g : GameM) : GameM :=
  Game.foldMsgs inp.stepMsgs
    { g with
      player := inp.stepPlayer g.player,
      enemies := g.enemies.map (fun e => { e with pos := inp.stepEnemyPos e.id e.pos }) }

/-- Player-input phase of Game.update (survive.py lines 393-394):
Player.update runs unless the state is GAME_OVER. -/
def Game.playerPhase (inp : FrameInput) (g1 : GameM) : GameM :=
  if g1.state ≠ GameState.GAME_OVER then
    { g1 with player := Player.update inp.keys g1.player }
  else g1

/-- Tail of Game.update (survive.py lines 403-410): the particle-emitter
loop, then a bullet spawn on a fresh left click while RUNNING, then
HAS_WON whenever the enemy list is empty. -/
def Game.endPhase (inp : FrameInput) (g3 : GameM) : GameM :=
  let g4 := Game.particlesLoop 0 g3
  let g5 := if g4.state = GameState.RUNNING ∧ inp.mouseLeftP = true then
      Game.shoot_bullet inp.shootDir g4
    else g4
  if g5.enemies.length = 0 then { g5 with state := GameState.HAS_WON } else g5

/-- Game.update (survive.py lines 390-410): physics step; player input
unless GAME_OVER; camera follow (camera-only, not tracked); the bullet
loop with per-bullet enemy-hit verification; then the end phase.  A
ValueError escaping the bullet loop aborts the frame. -/
def Game.update (inp : FrameInput) (g : GameM) : Except Unit GameM :=
  match Game.bulletsLoop inp.expo 0 (Game.playerPhase inp (Game.stepPhase inp g)) with
  | Except.error u => Except.error u
  | Except.ok g3 => Except.ok (Game.endPhase inp g3)

/-- Repeated Game.shoot_bullet calls in immediate succession (no update in
between), as in the 11-shots boundary scenario. -/
def Game.shootN (dir : Vec2) (g : GameM) : Nat → GameM
  | 0 => g
  | n + 1 => Game.shoot_bullet dir (Game.shootN dir g n)

/-- Frame input with no key or mouse activity, an identity physics step,
no collision messages and zeroed random draws. -/
def inpQuiet : FrameInput :=
  { stepPlayer := id, stepEnemyPos := fun _ p => p, stepMsgs := [],
    keys := { keyA := false, keyD := false, keyWp := false },
    mouseLeftP := false, shootDir := ⟨1, 0⟩, expo := fun _ _ => 0 }

/-- A player body at rest at the origin. -/
def pQuiet : PlayerM :=
  { pos := ⟨0, 0⟩, vel := ⟨0, 0⟩, force := ⟨0, 0⟩, mass := 1, can_jump := false }

/-- Game state builder for concrete scenarios: given state, enemies and
bullets, with no particle emitters pending. -/
def gameWith (st : GameState) (es : List EnemyM) (bs : List BulletM) : GameM :=
  { state := st, player := pQuiet, enemies := es, bullets := bs,
    particles := [], nextId := 50 }

theorem bullet_iter_life (b : BulletM) : ∀ n : Nat,
    (Bullet.iter b n).life_time = b.life_time - (n : Int)
  | 0 => by simp [Bullet.iter]
  | n + 1 => by
    have ih := bullet_iter_life b n
    simp only [Bullet.iter, Bullet.updateM]
    push_cast
    omega

/-- C7: each Bullet.update decreases life_time by exactly 1 (so it is
strictly decreasing), life_time after n updates is the initial value minus
n, the removal callback fires in an update exactly when the decremented
life_time is below 0, and for a freshly constructed bullet (life_time 150)
that first happens in update number 151.  Earlier removal by a hit is the
business of Game.verify_bullet_hit_enemies, which takes the bullet out of
the update loop. -/
theorem bullet_lifetime_strict_decrease_and_removal (b : BulletM) (n : Nat)
    (bid : Nat) (pos dir : Vec2) :
    (Bullet.iter b (n + 1)).life_time = (Bullet.iter b n).life_time - 1 ∧
    (Bullet.iter b n).life_time = b.life_time - (n : Int) ∧
    ((Bullet.updateM (Bullet.iter b n)).2 = true ↔
      (Bullet.iter b (n + 1)).life_time < 0) ∧
    ((Bullet.updateM (Bullet.iter (Bullet.create bid pos dir) n)).2 = true ↔
      151 ≤ n + 1) := by
  refine ⟨by simp [Bullet.iter, Bullet.updateM], bullet_iter_life b n, ?_, ?_⟩
  · simp [Bullet.iter, Bullet.updateM]
  · have hl := bullet_iter_life (Bullet.create bid pos dir) n
    simp only [Bullet.updateM, decide_eq_true_eq]
    rw [hl]
    simp only [Bullet.create, Bullet.LIFE_TIME]
    omega

/-- C10: Player.update never changes the vertical velocity component
unless the jump impulse fires, and the jump impulse (vertical velocity set
to JUMP_SPEED) fires exactly when can_jump holds and W is freshly
pressed; in particular with can_jump = false the vertical velocity is
unchanged whatever keys are pressed. -/
theorem player_update_vertical_velocity (inp : KeyInput) (p : PlayerM) :
    (Player.update inp p).vel.y =
      (if p.can_jump && inp.keyWp then Player.JUMP_SPEED else p.vel.y) := by
  cases hc : p.can_jump <;> cases ha : inp.keyA <;> cases hd : inp.keyD <;>
    cases hw : inp.keyWp <;> simp [Player.update, hc, ha, hd, hw]

/-- C1 counterexample: with the contact delivered as (player, enemy) and a
contact normal relative to the player pointing straight down (y = -1 <
0.25, the player landing on top of the enemy), the begin callback does
not send "hit_player" — it removes the enemy shape — contradicting the
claim that a sub-threshold normal produces the "hit_player" message. -/
theorem stomp_normal_is_not_hit_player :
    ((⟨⟨0, ColType.PLAYER⟩, ⟨1, ColType.ENEMY⟩, ⟨0, -1⟩⟩ : ArbiterM).normal_from
        ⟨0, ColType.PLAYER⟩).y < 1/4 ∧
    Enemy.beginCollision ⟨⟨0, ColType.PLAYER⟩, ⟨1, ColType.ENEMY⟩, ⟨0, -1⟩⟩ ≠
      BeginAction.sendHitPlayer ∧
    Enemy.beginCollision ⟨⟨0, ColType.PLAYER⟩, ⟨1, ColType.ENEMY⟩, ⟨0, -1⟩⟩ =
      BeginAction.removeFromSpace ⟨1, ColType.ENEMY⟩ := by
  have h3 : Enemy.beginCollision ⟨⟨0, ColType.PLAYER⟩, ⟨1, ColType.ENEMY⟩, ⟨0, -1⟩⟩ =
      BeginAction.removeFromSpace ⟨1, ColType.ENEMY⟩ := by
    norm_num [Enemy.beginCollision, Enemy.beginSelect, ArbiterM.normal_from]
  exact ⟨by norm_num [ArbiterM.normal_from], by rw [h3]; decide, h3⟩

/-- C1 amended: the two branches are the other way around from the claim.
For a contact delivered with shape_a tagged PLAYER (the order the handler
is registered with), when the normal relative to the player has
y-component below 0.25 the callback removes the enemy shape (shape_b)
from the space (stomp kill), and otherwise it sends "hit_player". -/
theorem enemy_begin_collision_branches (arb : ArbiterM)
    (ha : arb.shape_a.collision_type = ColType.PLAYER) :
    Enemy.beginCollision arb =
      (if (arb.normal_from arb.shape_a).y < 1/4 then
        BeginAction.removeFromSpace arb.shape_b
      else BeginAction.sendHitPlayer) := by
  simp [Enemy.beginCollision, Enemy.beginSelect, ha]

/-- C1 amended, witness: the branch characterization evaluated at the
concrete stomp contact used in the counterexample. -/
theorem enemy_begin_collision_branches_witness :
    ((⟨⟨0, ColType.PLAYER⟩, ⟨1, ColType.ENEMY⟩, ⟨0, -1⟩⟩ : ArbiterM).shape_a.collision_type
        = ColType.PLAYER) ∧
    Enemy.beginCollision ⟨⟨0, ColType.PLAYER⟩, ⟨1, ColType.ENEMY⟩, ⟨0, -1⟩⟩ =
      (if ((⟨⟨0, ColType.PLAYER⟩, ⟨1, ColType.ENEMY⟩, ⟨0, -1⟩⟩ : ArbiterM).normal_from
          ⟨0, ColType.PLAYER⟩).y < 1/4 then
        BeginAction.removeFromSpace ⟨1, ColType.ENEMY⟩
      else BeginAction.sendHitPlayer) :=
  ⟨rfl, enemy_begin_collision_branches ⟨⟨0, ColType.PLAYER⟩, ⟨1, ColType.ENEMY⟩, ⟨0, -1⟩⟩ rfl⟩

/-- C4 (code defect, flagged in the spec's design notes): when the physics
engine delivers the contact with shape_a tagged ENEMY and shape_b tagged
PLAYER, the handler's `player, enemy = shape_b, shape_b` branch selects
the player correctly but binds the enemy variable to the player's shape
too; on a sub-threshold normal it therefore removes the PLAYER-tagged
shape from the space, not the ENEMY-tagged one. -/
theorem swapped_contact_removes_player_shape :
    Enemy.beginSelect ⟨⟨1, ColType.ENEMY⟩, ⟨0, ColType.PLAYER⟩, ⟨0, 1⟩⟩ =
      (⟨0, ColType.PLAYER⟩, ⟨0, ColType.PLAYER⟩) ∧
    ((⟨⟨1, ColType.ENEMY⟩, ⟨0, ColType.PLAYER⟩, ⟨0, 1⟩⟩ : ArbiterM).normal_from
        ⟨0, ColType.PLAYER⟩).y < 1/4 ∧
    Enemy.beginCollision ⟨⟨1, ColType.ENEMY⟩, ⟨0, ColType.PLAYER⟩, ⟨0, 1⟩⟩ =
      BeginAction.removeFromSpace ⟨0, ColType.PLAYER⟩ ∧
    (⟨0, ColType.PLAYER⟩ : ShapeM).collision_type ≠ ColType.ENEMY := by
  have hne : ColType.ENEMY ≠ ColType.PLAYER := by decide
  refine ⟨?_, by norm_num [ArbiterM.normal_from, Vec2.neg], ?_, by decide⟩ <;>
    norm_num [Enemy.beginCollision, Enemy.beginSelect, ArbiterM.normal_from, Vec2.neg, hne]

theorem shoot_len_of_le (dir : Vec2) (g : GameM)
    (h : g.bullets.length ≤ Game.MAX_BULLETS) :
    (Game.shoot_bullet dir g).bullets.length = g.bullets.length + 1 := by
  rw [Game.shoot_bullet, if_neg (by omega)]
  simp

theorem shootN_length (dir : Vec2) (g : GameM) : ∀ n : Nat,
    g.bullets.length + n ≤ Game.MAX_BULLETS + 1 →
    (Game.shootN dir g n).bullets.length = g.bullets.length + n := by
  intro n
  induction n with
  | zero => intro _; simp [Game.shootN]
  | succ n ih =>
    intro h
    have hn := ih (by omega)
    rw [Game.shootN, shoot_len_of_le dir _ (by rw [hn]; simp only [Game.MAX_BULLETS] at h ⊢; omega)]
    omega

/-- C3 counterexample: from an empty bullets list, 11 immediate
shoot_bullet calls do create an 11th live bullet — the list ends with 11
elements, exceeding MAX_BULLETS = 10 — because the guard is
`len(bullets) > MAX_BULLETS` rather than `>=`. -/
theorem eleven_shots_make_eleven_bullets :
    ¬ ((Game.shootN ⟨1, 0⟩ (gameWith GameState.RUNNING [] []) 11).bullets.length ≤
        Game.MAX_BULLETS) := by
  decide

/-- C3 corrected: with the source's off-by-one guard (`>` instead of
`>=`), 11 shoot_bullet calls from an empty list yield exactly
MAX_BULLETS + 1 = 11 live bullets, and MAX_BULLETS + 1 is the true cap:
shoot_bullet never grows the list beyond 11. -/
theorem shoot_bullet_cap_plus_one (dir : Vec2) (g : GameM) :
    (g.bullets = [] → (Game.shootN dir g 11).bullets.length = Game.MAX_BULLETS + 1) ∧
    (g.bullets.length ≤ Game.MAX_BULLETS + 1 →
      (Game.shoot_bullet dir g).bullets.length ≤ Game.MAX_BULLETS + 1) := by
  constructor
  · intro h
    have := shootN_length dir g 11 (by simp [h, Game.MAX_BULLETS])
    rw [this, h]
    simp [Game.MAX_BULLETS]
  · intro h
    by_cases hc : g.bullets.length > Game.MAX_BULLETS
    · rw [Game.shoot_bullet, if_pos hc]
      exact h
    · rw [Game.shoot_bullet, if_neg hc]
      simp only [List.length_append, List.length_cons, List.length_nil]
      simp only [Game.MAX_BULLETS] at hc ⊢
      omega

/-- C3 corrected, witness: the 11-shot run evaluated from the concrete
empty-bullets game state. -/
theorem shoot_bullet_cap_plus_one_witness :
    (gameWith GameState.RUNNING [] []).bullets = [] ∧
    (Game.shootN ⟨1, 0⟩ (gameWith GameState.RUNNING [] []) 11).bullets.length =
      Game.MAX_BULLETS + 1 ∧
    (Game.shoot_bullet ⟨1, 0⟩ (gameWith GameState.RUNNING [] [])).bullets.length ≤
      Game.MAX_BULLETS + 1 :=
  ⟨rfl, (shoot_bullet_cap_plus_one ⟨1, 0⟩ (gameWith GameState.RUNNING [] [])).1 rfl,
    (shoot_bullet_cap_plus_one ⟨1, 0⟩ (gameWith GameState.RUNNING [] [])).2 (by decide)⟩

theorem dp_emmit_inv (e : ℚ) (d : DeathParticlesM)
    (h1 : d.generated ≤ DeathParticles.MAX_GENERATED)
    (h2 : d.particles.length ≤ d.generated) :
    (d.emmit e).generated ≤ DeathParticles.MAX_GENERATED ∧
    (d.emmit e).particles.length ≤ (d.emmit e).generated := by
  rw [DeathParticlesM.emmit]
  by_cases hk : d.keep_generating = true
  · rw [if_neg (by simp [hk])]
    have : d.generated < DeathParticles.MAX_GENERATED := by
      simpa [DeathParticlesM.keep_generating] using hk
    constructor
    · simpa using this
    · simpa using h2
  · rw [if_pos (by simpa using hk)]
    exact ⟨h1, h2⟩

theorem dp_fold_inv (expo : Nat → ℚ) : ∀ (l : List Nat) (d : DeathParticlesM),
    d.generated ≤ DeathParticles.MAX_GENERATED →
    d.particles.length ≤ d.generated →
    ((l.foldl (fun acc k => acc.emmit (expo k)) d).generated ≤ DeathParticles.MAX_GENERATED ∧
      (l.foldl (fun acc k => acc.emmit (expo k)) d).particles.length ≤
        (l.foldl (fun acc k => acc.emmit (expo k)) d).generated) := by
  intro l
  induction l with
  | nil => intro d h1 h2; exact ⟨h1, h2⟩
  | cons a as ih =>
    intro d h1 h2
    have hstep := dp_emmit_inv (expo a) d h1 h2
    simpa using ih (d.emmit (expo a)) hstep.1 hstep.2

theorem dp_generate_inv (n : Nat) (expo : Nat → ℚ) (d : DeathParticlesM)
    (h1 : d.generated ≤ DeathParticles.MAX_GENERATED)
    (h2 : d.particles.length ≤ d.generated) :
    (d.generate_particles n expo).generated ≤ DeathParticles.MAX_GENERATED ∧
    (d.generate_particles n expo).particles.length ≤
      (d.generate_particles n expo).generated := by
  rw [DeathParticlesM.generate_particles]
  by_cases hk : d.keep_generating = true
  · rw [if_neg (by simp [hk])]
    exact dp_fold_inv expo (List.range n) d h1 h2
  · rw [if_pos (by simpa using hk)]
    exact ⟨h1, h2⟩

theorem dp_runCalls_inv : ∀ (calls : List DPCall) (d : DeathParticlesM),
    d.generated ≤ DeathParticles.MAX_GENERATED →
    d.particles.length ≤ d.generated →
    ((d.runCalls calls).generated ≤ DeathParticles.MAX_GENERATED ∧
      (d.runCalls calls).particles.length ≤ (d.runCalls calls).generated) := by
  intro calls
  induction calls with
  | nil => intro d h1 h2; exact ⟨h1, h2⟩
  | cons c rest ih =>
    intro d h1 h2
    cases c with
    | emmitC e =>
      have hstep := dp_emmit_inv e d h1 h2
      exact ih (d.emmit e) hstep.1 hstep.2
    | generateC n expo =>
      have hstep := dp_generate_inv n expo d h1 h2
      exact ih (d.generate_particles n expo) hstep.1 hstep.2

/-- C6: a fresh DeathParticles emitter, subjected to any sequence of
emmit and generate_particles calls with any batch sizes and any random
draws, never gets its generated counter past MAX_GENERATED = 100, and the
particles appended to its list never outnumber the generated counter. -/
theorem death_particles_generated_le_max (did : Nat) (calls : List DPCall) :
    ((DeathParticles.init did).runCalls calls).generated ≤ DeathParticles.MAX_GENERATED ∧
    ((DeathParticles.init did).runCalls calls).particles.length ≤
      ((DeathParticles.init did).runCalls calls).generated :=
  dp_runCalls_inv calls (DeathParticles.init did) (by simp [DeathParticles.init])
    (by simp [DeathParticles.init])

theorem foldMsgs_facts : ∀ (msgs : List String) (g : GameM),
    ((Game.foldMsgs msgs g).state = g.state ∨
      (Game.foldMsgs msgs g).state = GameState.GAME_OVER) ∧
    (Game.foldMsgs msgs g).player = g.player ∧
    (Game.foldMsgs msgs g).enemies = g.enemies ∧
    (Game.foldMsgs msgs g).bullets = g.bullets ∧
    (Game.foldMsgs msgs g).particles = g.particles ∧
    (Game.foldMsgs msgs g).nextId = g.nextId := by
  intro msgs
  induction msgs with
  | nil => intro g; simp [Game.foldMsgs]
  | cons m rest ih =>
    intro g
    have hstep : Game.foldMsgs (m :: rest) g = Game.foldMsgs rest (Game.message m g) := rfl
    rw [hstep]
    have ihg := ih (Game.message m g)
    by_cases hm : m = "hit_player"
    · simp only [Game.message, if_pos hm] at ihg ⊢
      refine ⟨Or.inr ?_, ihg.2.1, ihg.2.2.1, ihg.2.2.2.1, ihg.2.2.2.2.1, ihg.2.2.2.2.2⟩
      rcases ihg.1 with h | h
      · exact h
      · exact h
    · simp only [Game.message, if_neg hm] at ihg ⊢
      exact ihg

theorem stepPhase_facts (inp : FrameInput) (g : GameM) :
    ((Game.stepPhase inp g).state = g.state ∨
      (Game.stepPhase inp g).state = GameState.GAME_OVER) ∧
    (Game.stepPhase inp g).enemies.length = g.enemies.length ∧
    (Game.stepPhase inp g).bullets = g.bullets ∧
    (Game.stepPhase inp g).particles = g.particles := by
  have hf := foldMsgs_facts inp.stepMsgs
    { g with
      player := inp.stepPlayer g.player,
      enemies := g.enemies.map (fun e => { e with pos := inp.stepEnemyPos e.id e.pos }) }
  refine ⟨hf.1, ?_, hf.2.2.2.1, hf.2.2.2.2.1⟩
  have he : (Game.stepPhase inp g).enemies =
      g.enemies.map (fun e => { e with pos := inp.stepEnemyPos e.id e.pos }) := hf.2.2.1
  rw [he, List.length_map]

theorem playerPhase_facts (inp : FrameInput) (g1 : GameM) :
    (Game.playerPhase inp g1).state = g1.state ∧
    (Game.playerPhase inp g1).enemies = g1.enemies ∧
    (Game.playerPhase inp g1).bullets = g1.bullets ∧
    (Game.playerPhase inp g1).particles = g1.particles := by
  by_cases hc : g1.state ≠ GameState.GAME_OVER <;> simp [Game.playerPhase, hc]

theorem Game.verifyLoop_state_enemies (bpos : Vec2) (bId : Nat) (expo : Nat → Nat → ℚ) :
    ∀ (i : Nat) (g : GameM), ∀ g2, Game.verifyLoop bpos bId expo i g = Except.ok g2 →
      g2.state = g.state ∧ g2.enemies.length ≤ g.enemies.length ∧ g2.player = g.player := by
  intro i g
  induction i, g using Game.verifyLoop.induct bpos bId expo with
  | case1 i g h e hhit u hdel =>
    intro g2 hrun
    rw [Game.verifyLoop] at hrun
    have hhit2 : hitTest bpos g.enemies[i] = true := hhit
    simp [dif_pos h, hhit2, hdel] at hrun
  | case2 i g h e hhit bs hdel e2 hle ih =>
    intro g2 hrun
    rw [Game.verifyLoop] at hrun
    have hhit2 : hitTest bpos g.enemies[i] = true := hhit
    have hle2 : g.enemies[i].lives - 1 ≤ 0 := hle
    simp [dif_pos h, hhit2, hdel, hle2] at hrun
    have hstep := ih g2 hrun
    have hst : g2.state = g.state := hstep.1
    have hpl : g2.player = g.player := hstep.2.2
    have hlen : g2.enemies.length ≤
        (Game.del_enemy e2.id (expo e2.id)
          { g with bullets := bs, enemies := g.enemies.set i e2 }).enemies.length :=
      hstep.2.1
    have key : (Game.del_enemy e2.id (expo e2.id)
        { g with bullets := bs, enemies := g.enemies.set i e2 }).enemies.length + 1 =
        g.enemies.length := by
      show (removeFirst (fun x => x.id == e2.id) (g.enemies.set i e2)).length + 1 =
        g.enemies.length
      have key0 := removeFirst_length_of_any (fun x => x.id == e2.id)
        (g.enemies.set i e2) (enemies_set_any_id g.enemies i h e2 rfl)
      simpa using key0
    exact ⟨hst, by omega, hpl⟩
  | case3 i g h e hhit bs hdel e2 hgt ih =>
    intro g2 hrun
    rw [Game.verifyLoop] at hrun
    have hhit2 : hitTest bpos g.enemies[i] = true := hhit
    have hgt2 : ¬ g.enemies[i].lives - 1 ≤ 0 := hgt
    simp [dif_pos h, hhit2, hdel, hgt2] at hrun
    have hstep := ih g2 hrun
    have hlen : g2.enemies.length ≤ (g.enemies.set i e2).length := hstep.2.1
    simp only [List.length_set] at hlen
    exact ⟨hstep.1, hlen, hstep.2.2⟩
  | case4 i g h e hmiss ih =>
    intro g2 hrun
    rw [Game.verifyLoop] at hrun
    have hmiss2 : ¬ hitTest bpos g.enemies[i] = true := hmiss
    simp [dif_pos h, hmiss2] at hrun
    exact ih g2 hrun
  | case5 i g h =>
    intro g2 hrun
    rw [Game.verifyLoop] at hrun
    simp only [dif_neg h] at hrun
    cases hrun
    exact ⟨rfl, le_refl _, rfl⟩

theorem Game.verify_state_enemies (b : BulletM) (expo : Nat → Nat → ℚ) (g g2 : GameM)
    (h : Game.verify_bullet_hit_enemies b expo g = Except.ok g2) :
    g2.state = g.state ∧ g2.enemies.length ≤ g.enemies.length ∧ g2.player = g.player :=
  Game.verifyLoop_state_enemies b.pos b.id expo 0 g g2 h

theorem Game.bulletsLoop_state_enemies (expo : Nat → Nat → ℚ) :
    ∀ (i : Nat) (g : GameM), ∀ g2, Game.bulletsLoop expo i g = Except.ok g2 →
      g2.state = g.state ∧ g2.enemies.length ≤ g.enemies.length := by
  intro i g
  induction i, g using Game.bulletsLoop.induct expo with
  | case1 i g h b u hdel =>
    intro g2 hrun
    rw [Game.bulletsLoop] at hrun
    rw [dif_pos h] at hrun
    have hdel2 : (if (Bullet.updateM g.bullets[i]).2 = true then
        Game.del_bullet (Bullet.updateM g.bullets[i]).1.id
          (g.bullets.set i (Bullet.updateM g.bullets[i]).1)
      else Except.ok (g.bullets.set i (Bullet.updateM g.bullets[i]).1)) =
        Except.error u := hdel
    dsimp only [] at hrun
    split at hrun
    · simp at hrun
    · rename_i bs heq
      rw [hdel2] at heq
      simp at heq
  | case2 i g h b bs hdel u hver =>
    intro g2 hrun
    rw [Game.bulletsLoop] at hrun
    rw [dif_pos h] at hrun
    have hdel2 : (if (Bullet.updateM g.bullets[i]).2 = true then
        Game.del_bullet (Bullet.updateM g.bullets[i]).1.id
          (g.bullets.set i (Bullet.updateM g.bullets[i]).1)
      else Except.ok (g.bullets.set i (Bullet.updateM g.bullets[i]).1)) =
        Except.ok bs := hdel
    dsimp only [] at hrun
    split at hrun
    · rename_i u2 heq
      rw [hdel2] at heq
      simp at heq
    · rename_i bs2 heq
      rw [hdel2] at heq
      injection heq with heqbs
      subst heqbs
      split at hrun
      · simp at hrun
      · rename_i g3 heq3
        have hver2 : Game.verify_bullet_hit_enemies (Bullet.updateM g.bullets[i]).1 expo
            { state := g.state, player := g.player, enemies := g.enemies, bullets := bs,
              particles := g.particles, nextId := g.nextId } = Except.error u := hver
        rw [hver2] at heq3
        simp at heq3
  | case3 i g h b bs hdel g3 hver ih =>
    intro g2 hrun
    rw [Game.bulletsLoop] at hrun
    rw [dif_pos h] at hrun
    have hdel2 : (if (Bullet.updateM g.bullets[i]).2 = true then
        Game.del_bullet (Bullet.updateM g.bullets[i]).1.id
          (g.bullets.set i (Bullet.updateM g.bullets[i]).1)
      else Except.ok (g.bullets.set i (Bullet.updateM g.bullets[i]).1)) =
        Except.ok bs := hdel
    dsimp only [] at hrun
    split at hrun
    · rename_i u2 heq
      rw [hdel2] at heq
      simp at heq
    · rename_i bs2 heq
      rw [hdel2] at heq
      injection heq with heqbs
      subst heqbs
      split at hrun
      · rename_i u2 heq3
        have hver2 : Game.verify_bullet_hit_enemies (Bullet.updateM g.bullets[i]).1 expo
            { state := g.state, player := g.player, enemies := g.enemies, bullets := bs,
              particles := g.particles, nextId := g.nextId } = Except.ok g3 := hver
        rw [hver2] at heq3
        simp at heq3
      · rename_i g3b heq3
        have hver2 : Game.verify_bullet_hit_enemies (Bullet.updateM g.bullets[i]).1 expo
            { state := g.state, player := g.player, enemies := g.enemies, bullets := bs,
              particles := g.particles, nextId := g.nextId } = Except.ok g3 := hver
        rw [hver2] at heq3
        injection heq3 with heqg
        subst heqg
        have hnext := ih g2 hrun
        have hv := Game.verify_state_enemies (Bullet.updateM g.bullets[i]).1 expo
          { g with bullets := bs } g3 hver2
        have hst : g3.state = g.state := hv.1
        have hen : g3.enemies.length ≤ g.enemies.length := hv.2.1
        exact ⟨hnext.1.trans hst, le_trans hnext.2 hen⟩
  | case4 i g h =>
    intro g2 hrun
    rw [Game.bulletsLoop] at hrun
    rw [dif_neg h] at hrun
    cases hrun
    exact ⟨rfl, le_refl _⟩

theorem Game.particlesLoop_facts : ∀ (i : Nat) (g : GameM),
    (Game.particlesLoop i g).state = g.state ∧
    (Game.particlesLoop i g).enemies = g.enemies ∧
    (Game.particlesLoop i g).bullets = g.bullets := by
  intro i g
  induction i, g using Game.particlesLoop.induct with
  | case1 i g h d hemp ih =>
    rw [Game.particlesLoop]
    have hemp2 : ((g.particles[i]).updateParticles).particles.isEmpty = true := hemp
    simp only [dif_pos h, hemp2]
    simp only [if_pos]
    exact ih
  | case2 i g h d hemp ih =>
    rw [Game.particlesLoop]
    have hemp2 : ¬ ((g.particles[i]).updateParticles).particles.isEmpty = true := hemp
    simp only [dif_pos h]
    rw [if_neg hemp2]
    exact ih
  | case3 i g h =>
    rw [Game.particlesLoop]
    simp [dif_neg h]

theorem Game.shoot_facts (dir : Vec2) (g : GameM) :
    (Game.shoot_bullet dir g).state = g.state ∧
    (Game.shoot_bullet dir g).enemies = g.enemies := by
  by_cases hc : g.bullets.length > Game.MAX_BULLETS <;> simp [Game.shoot_bullet, hc]

theorem Game.endPhase_facts (inp : FrameInput) (g3 : GameM) :
    (Game.endPhase inp g3).enemies = g3.enemies ∧
    (g3.enemies = [] → (Game.endPhase inp g3).state = GameState.HAS_WON) ∧
    (g3.enemies ≠ [] → (Game.endPhase inp g3).state = g3.state) := by
  have hp := Game.particlesLoop_facts 0 g3
  simp only [Game.endPhase]
  by_cases hshoot : (Game.particlesLoop 0 g3).state = GameState.RUNNING ∧ inp.mouseLeftP = true
  · rw [if_pos hshoot]
    have hs := Game.shoot_facts inp.shootDir (Game.particlesLoop 0 g3)
    have he : (Game.shoot_bullet inp.shootDir (Game.particlesLoop 0 g3)).enemies =
        g3.enemies := by rw [hs.2, hp.2.1]
    by_cases hlen : (Game.shoot_bullet inp.shootDir (Game.particlesLoop 0 g3)).enemies.length = 0
    · rw [if_pos hlen]
      refine ⟨he, fun _ => rfl, fun hne => ?_⟩
      exact absurd (List.length_eq_zero.mp (he ▸ hlen)) hne
    · rw [if_neg hlen]
      refine ⟨he, fun hemp => ?_, fun _ => ?_⟩
      · exact absurd (by rw [he, hemp]; rfl) hlen
      · rw [hs.1, hp.1]
  · rw [if_neg hshoot]
    by_cases hlen : (Game.particlesLoop 0 g3).enemies.length = 0
    · rw [if_pos hlen]
      refine ⟨hp.2.1, fun _ => rfl, fun hne => ?_⟩
      exact absurd (List.length_eq_zero.mp (hp.2.1 ▸ hlen)) hne
    · rw [if_neg hlen]
      refine ⟨hp.2.1, fun hemp => ?_, fun _ => hp.1⟩
      exact absurd (by rw [hp.2.1, hemp]; rfl) hlen

theorem Game.update_ok (inp : FrameInput) (g gf : GameM)
    (h : Game.update inp g = Except.ok gf) :
    ∃ g3, Game.bulletsLoop inp.expo 0 (Game.playerPhase inp (Game.stepPhase inp g)) =
        Except.ok g3 ∧ gf = Game.endPhase inp g3 := by
  rw [Game.update] at h
  cases hb : Game.bulletsLoop inp.expo 0 (Game.playerPhase inp (Game.stepPhase inp g)) with
  | error u => rw [hb] at h; cases h
  | ok g3 =>
    rw [hb] at h
    cases h
    exact ⟨g3, rfl, rfl⟩

/-- C2 counterexample: with the game already in GAME_OVER and the enemy
list empty (all remaining enemies having been killed by bullets still in
flight after the fatal collision), the very next Game.update sets the
state to HAS_WON — GAME_OVER is not terminal. -/
theorem game_over_update_reaches_has_won :
    (Game.update inpQuiet (gameWith GameState.GAME_OVER [] [])).toOption.map GameM.state =
      some GameState.HAS_WON := by
  simp [Game.update, Game.stepPhase, Game.foldMsgs, Game.playerPhase, Game.bulletsLoop,
    Game.particlesLoop, Game.endPhase, gameWith, inpQuiet, pQuiet, Except.toOption]

/-- C2 corrected: a completed Game.update never returns the state to
RUNNING, and HAS_WON (whose invariant is an empty enemy list) is
preserved; but GAME_OVER is not terminal: an update made from GAME_OVER
ends in GAME_OVER or, when the enemy list has emptied, in HAS_WON —
Game.update sets HAS_WON on an empty enemy list regardless of the current
state. -/
theorem terminal_states_never_return_to_running (inp : FrameInput) (g gf : GameM)
    (h : Game.update inp g = Except.ok gf) :
    (gf.state = GameState.RUNNING → g.state = GameState.RUNNING) ∧
    (g.state = GameState.HAS_WON → g.enemies = [] → gf.state = GameState.HAS_WON) ∧
    (g.state = GameState.GAME_OVER →
      gf.state = GameState.GAME_OVER ∨
        (gf.state = GameState.HAS_WON ∧ gf.enemies = [])) := by
  obtain ⟨g3, hb, rfl⟩ := Game.update_ok inp g gf h
  have hstep := stepPhase_facts inp g
  have hpp := playerPhase_facts inp (Game.stepPhase inp g)
  have hbl := Game.bulletsLoop_state_enemies inp.expo 0
    (Game.playerPhase inp (Game.stepPhase inp g)) g3 hb
  have hend := Game.endPhase_facts inp g3
  have hst3 : g3.state = (Game.stepPhase inp g).state := hbl.1.trans hpp.1
  refine ⟨?_, ?_, ?_⟩
  · intro hrun
    by_cases hge : g3.enemies = []
    · rw [hend.2.1 hge] at hrun
      cases hrun
    · rw [hend.2.2 hge, hst3] at hrun
      rcases hstep.1 with h6 | h6
      · rw [h6] at hrun; exact hrun
      · rw [h6] at hrun; cases hrun
  · intro _ he
    have hg3emp : g3.enemies = [] := by
      refine List.length_eq_zero.mp ?_
      have h1 := hbl.2
      rw [hpp.2.1] at h1
      have h2 : (Game.stepPhase inp g).enemies.length = 0 := by
        simp [hstep.2.1, he]
      omega
    exact hend.2.1 hg3emp
  · intro hgo
    by_cases hge : g3.enemies = []
    · right
      exact ⟨hend.2.1 hge, by rw [hend.1]; exact hge⟩
    · left
      rw [hend.2.2 hge, hst3]
      rcases hstep.1 with h6 | h6
      · rw [h6]; exact hgo
      · exact h6

/-- C2 corrected, witness: from GAME_OVER with one enemy left, the next
update stays in GAME_OVER. -/
theorem terminal_states_never_return_to_running_witness :
    Game.update inpQuiet (gameWith GameState.GAME_OVER [⟨1, ⟨100, 100⟩, 5, 4⟩] []) =
      Except.ok (gameWith GameState.GAME_OVER [⟨1, ⟨100, 100⟩, 5, 4⟩] []) ∧
    ((gameWith GameState.GAME_OVER [⟨1, ⟨100, 100⟩, 5, 4⟩] []).state =
        GameState.GAME_OVER ∨
      ((gameWith GameState.GAME_OVER [⟨1, ⟨100, 100⟩, 5, 4⟩] []).state =
          GameState.HAS_WON ∧
        (gameWith GameState.GAME_OVER [⟨1, ⟨100, 100⟩, 5, 4⟩] []).enemies = [])) := by
  have hEval : Game.update inpQuiet (gameWith GameState.GAME_OVER [⟨1, ⟨100, 100⟩, 5, 4⟩] []) =
      Except.ok (gameWith GameState.GAME_OVER [⟨1, ⟨100, 100⟩, 5, 4⟩] []) := by
    simp [Game.update, Game.stepPhase, Game.foldMsgs, Game.playerPhase, Game.bulletsLoop,
      Game.particlesLoop, Game.endPhase, gameWith, inpQuiet, pQuiet]
  exact ⟨hEval,
    (terminal_states_never_return_to_running inpQuiet
      (gameWith GameState.GAME_OVER [⟨1, ⟨100, 100⟩, 5, 4⟩] [])
      (gameWith GameState.GAME_OVER [⟨1, ⟨100, 100⟩, 5, 4⟩] []) hEval).2.2 rfl⟩

/-- C9: at the end of a completed Game.update pass the state is HAS_WON
exactly when the enemy collection is empty — given the cross-frame
invariant that a state already at HAS_WON has an empty enemy list (enemies
are never created after construction). -/
theorem has_won_iff_enemies_empty (inp : FrameInput) (g gf : GameM)
    (hinv : g.state = GameState.HAS_WON → g.enemies = [])
    (h : Game.update inp g = Except.ok gf) :
    (gf.state = GameState.HAS_WON ↔ gf.enemies = []) := by
  obtain ⟨g3, hb, rfl⟩ := Game.update_ok inp g gf h
  have hstep := stepPhase_facts inp g
  have hpp := playerPhase_facts inp (Game.stepPhase inp g)
  have hbl := Game.bulletsLoop_state_enemies inp.expo 0
    (Game.playerPhase inp (Game.stepPhase inp g)) g3 hb
  have hend := Game.endPhase_facts inp g3
  have hst3 : g3.state = (Game.stepPhase inp g).state := hbl.1.trans hpp.1
  constructor
  · intro hw
    rw [hend.1]
    by_cases hge : g3.enemies = []
    · exact hge
    · exfalso
      rw [hend.2.2 hge, hst3] at hw
      rcases hstep.1 with h6 | h6
      · rw [h6] at hw
        have he := hinv hw
        refine hge (List.length_eq_zero.mp ?_)
        have h1 := hbl.2
        rw [hpp.2.1] at h1
        have h2 : (Game.stepPhase inp g).enemies.length = 0 := by
          simp [hstep.2.1, he]
        omega
      · rw [h6] at hw; cases hw
  · intro hge
    rw [hend.1] at hge
    exact hend.2.1 hge

/-- C9, witness: the iff evaluated after an update from GAME_OVER with one
far-away enemy (state is not HAS_WON, enemy list nonempty). -/
theorem has_won_iff_enemies_empty_witness :
    Game.update inpQuiet (gameWith GameState.GAME_OVER [⟨2, ⟨200, 100⟩, 6, 3⟩] []) =
      Except.ok (gameWith GameState.GAME_OVER [⟨2, ⟨200, 100⟩, 6, 3⟩] []) ∧
    ((gameWith GameState.GAME_OVER [⟨2, ⟨200, 100⟩, 6, 3⟩] []).state =
        GameState.HAS_WON ↔
      (gameWith GameState.GAME_OVER [⟨2, ⟨200, 100⟩, 6, 3⟩] []).enemies = []) := by
  have hEval : Game.update inpQuiet (gameWith GameState.GAME_OVER [⟨2, ⟨200, 100⟩, 6, 3⟩] []) =
      Except.ok (gameWith GameState.GAME_OVER [⟨2, ⟨200, 100⟩, 6, 3⟩] []) := by
    simp [Game.update, Game.stepPhase, Game.foldMsgs, Game.playerPhase, Game.bulletsLoop,
      Game.particlesLoop, Game.endPhase, gameWith, inpQuiet, pQuiet]
  refine ⟨hEval, has_won_iff_enemies_empty inpQuiet
    (gameWith GameState.GAME_OVER [⟨2, ⟨200, 100⟩, 6, 3⟩] [])
    (gameWith GameState.GAME_OVER [⟨2, ⟨200, 100⟩, 6, 3⟩] []) ?_ hEval⟩
  intro hcon
  simp [gameWith] at hcon

theorem countP_drop_zero_parts (p : EnemyM → Bool) (l : List EnemyM) (i : Nat)
    (h : i < l.length) (hc : (l.drop i).countP p = 0) :
    p l[i] = false ∧ (l.drop (i + 1)).countP p = 0 := by
  rw [List.drop_eq_getElem_cons h, List.countP_cons] at hc
  by_cases hp : p l[i] = true
  · rw [if_pos hp] at hc
    omega
  · rw [if_neg hp] at hc
    exact ⟨by simpa using hp, by simpa using hc⟩

/-- A verify pass that encounters no enemy in range from index i on leaves
the game unchanged. -/
theorem Game.verifyLoop_no_hits (bpos : Vec2) (bId : Nat) (expo : Nat → Nat → ℚ) :
    ∀ (i : Nat) (g : GameM),
      (g.enemies.drop i).countP (fun e => hitTest bpos e) = 0 →
      Game.verifyLoop bpos bId expo i g = Except.ok g := by
  intro i g
  induction i, g using Game.verifyLoop.induct bpos bId expo with
  | case1 i g h e hhit u hdel =>
    intro hcnt
    have hdp := countP_drop_zero_parts (fun e => hitTest bpos e) g.enemies i h hcnt
    have hhit2 : hitTest bpos g.enemies[i] = true := hhit
    have hfalse : hitTest bpos g.enemies[i] = false := hdp.1
    rw [hhit2] at hfalse
    cases hfalse
  | case2 i g h e hhit bs hdel e2 hle ih =>
    intro hcnt
    have hdp := countP_drop_zero_parts (fun e => hitTest bpos e) g.enemies i h hcnt
    have hhit2 : hitTest bpos g.enemies[i] = true := hhit
    have hfalse : hitTest bpos g.enemies[i] = false := hdp.1
    rw [hhit2] at hfalse
    cases hfalse
  | case3 i g h e hhit bs hdel e2 hgt ih =>
    intro hcnt
    have hdp := countP_drop_zero_parts (fun e => hitTest bpos e) g.enemies i h hcnt
    have hhit2 : hitTest bpos g.enemies[i] = true := hhit
    have hfalse : hitTest bpos g.enemies[i] = false := hdp.1
    rw [hhit2] at hfalse
    cases hfalse
  | case4 i g h e hmiss ih =>
    intro hcnt
    have hdp := countP_drop_zero_parts (fun e => hitTest bpos e) g.enemies i h hcnt
    rw [Game.verifyLoop]
    have hmiss2 : ¬ hitTest bpos g.enemies[i] = true := hmiss
    simp only [dif_pos h]
    rw [if_neg (by simpa using hmiss2)]
    exact ih hdp.2
  | case5 i g h =>
    intro _
    rw [Game.verifyLoop]
    rw [dif_neg h]

/-- Removing by the id of the element freshly written at index i of a
list with pairwise distinct ids erases exactly index i. -/
theorem removeFirst_set_self : ∀ (l : List EnemyM) (i : Nat) (h : i < l.length)
    (x : EnemyM), x.id = l[i].id → (l.map (fun e => e.id)).Nodup →
    removeFirst (fun e => e.id == x.id) (l.set i x) = l.eraseIdx i := by
  intro l
  induction l with
  | nil => intro i h; simp at h
  | cons a as ih =>
    intro i h x hx hnodup
    cases i with
    | zero =>
      simp only [List.set_cons_zero, List.eraseIdx_cons_zero]
      rw [removeFirst, if_pos (by simp)]
    | succ j =>
      have hj : j < as.length := by simpa using h
      have hxj : x.id = as[j].id := hx
      have hanodup : (as.map (fun e => e.id)).Nodup := (List.nodup_cons.mp hnodup).2
      have hne : ¬ (a.id == x.id) = true := by
        simp only [beq_iff_eq]
        intro hcon
        have hmem : as[j].id ∈ as.map (fun e => e.id) :=
          List.mem_map_of_mem _ (List.getElem_mem hj)
        have hnotin : a.id ∉ as.map (fun e => e.id) := (List.nodup_cons.mp hnodup).1
        rw [hcon, hxj] at hnotin
        exact hnotin hmem
      simp only [List.set_cons_succ, List.eraseIdx_cons_succ]
      rw [removeFirst, if_neg hne, ih j hj x hxj hanodup]

theorem countP_drop_succ_of_hit (p : EnemyM → Bool) (l : List EnemyM) (i : Nat)
    (h : i < l.length) (hp : p l[i] = true) (hc : (l.drop i).countP p ≤ 1) :
    (l.drop (i + 1)).countP p = 0 := by
  rw [List.drop_eq_getElem_cons h, List.countP_cons, if_pos hp] at hc
  omega

/-- A verify pass whose bullet is present and which has at most one enemy
in range from index i on never raises. -/
theorem Game.verifyLoop_le_one_hit (bpos : Vec2) (bId : Nat) (expo : Nat → Nat → ℚ) :
    ∀ (i : Nat) (g : GameM),
      g.bullets.any (fun x => x.id == bId) = true →
      (g.enemies.map (fun e => e.id)).Nodup →
      (g.enemies.drop i).countP (fun e => hitTest bpos e) ≤ 1 →
      ∃ g2, Game.verifyLoop bpos bId expo i g = Except.ok g2 := by
  intro i g
  induction i, g using Game.verifyLoop.induct bpos bId expo with
  | case1 i g h e hhit u hdel =>
    intro hpresent _ _
    rw [Game.del_bullet, if_pos hpresent] at hdel
    cases hdel
  | case2 i g h e hhit bs hdel e2 hle ih =>
    intro hpresent hnodup hcnt
    rw [Game.verifyLoop]
    have hhit2 : hitTest bpos g.enemies[i] = true := hhit
    have hle2 : g.enemies[i].lives - 1 ≤ 0 := hle
    simp only [dif_pos h, hhit2, hdel, hle2, if_true]
    have h0 := countP_drop_succ_of_hit (fun e => hitTest bpos e) g.enemies i h
      (by simpa using hhit2) hcnt
    refine ⟨_, Game.verifyLoop_no_hits bpos bId expo (i + 1) _ ?_⟩
    have hen : (Game.del_enemy e2.id (expo e2.id)
        { g with bullets := bs, enemies := g.enemies.set i e2 }).enemies =
        g.enemies.eraseIdx i := by
      show removeFirst (fun x => x.id == e2.id) (g.enemies.set i e2) = _
      exact removeFirst_set_self g.enemies i h e2 rfl hnodup
    rw [hen, List.eraseIdx_eq_take_drop_succ, List.drop_append_eq_append_drop]
    have htl : (g.enemies.take i).length = i := by
      rw [List.length_take]
      omega
    rw [List.drop_eq_nil_of_le (by rw [htl]; omega)]
    rw [List.nil_append, htl]
    have hidx : i + 1 - i = 1 := by omega
    rw [hidx]
    have hsub := ((g.enemies.drop (i + 1)).drop_sublist 1).countP_le
      (fun e => hitTest bpos e)
    omega
  | case3 i g h e hhit bs hdel e2 hgt ih =>
    intro hpresent hnodup hcnt
    rw [Game.verifyLoop]
    have hhit2 : hitTest bpos g.enemies[i] = true := hhit
    have hgt2 : ¬ g.enemies[i].lives - 1 ≤ 0 := hgt
    simp only [dif_pos h, hhit2, hdel, hgt2, if_true, if_false]
    have h0 := countP_drop_succ_of_hit (fun e => hitTest bpos e) g.enemies i h
      (by simpa using hhit2) hcnt
    refine ⟨_, Game.verifyLoop_no_hits bpos bId expo (i + 1) _ ?_⟩
    have hen : ({ g with bullets := bs, enemies := g.enemies.set i e2 } : GameM).enemies =
        g.enemies.set i e2 := rfl
    rw [hen, List.drop_set_of_lt e2 g.enemies (by omega : i < i + 1)]
    exact h0
  | case4 i g h e hmiss ih =>
    intro hpresent hnodup hcnt
    rw [Game.verifyLoop]
    have hmiss2 : ¬ hitTest bpos g.enemies[i] = true := hmiss
    simp only [dif_pos h]
    rw [if_neg (by simpa using hmiss2)]
    refine ih hpresent hnodup ?_
    rw [List.drop_eq_getElem_cons h, List.countP_cons] at hcnt
    rw [if_neg (by simpa using hmiss2)] at hcnt
    simpa using hcnt
  | case5 i g h =>
    intro _ _ _
    refine ⟨g, ?_⟩
    rw [Game.verifyLoop]
    rw [dif_neg h]

/-- C8 corrected: Game.del_bullet can be invoked twice for the same bullet
within one update pass — when the bullet overlaps two or more live
enemies in one frame, or when its lifetime expires in the same update in
which it also hits an enemy — and the second invocation fails.  In the
benign situation the claim intends — the bullet is still in the list and
at most one live enemy is within its radius — the removal is invoked at
most once and never fails. -/
theorem verify_single_overlap_no_failure (b : BulletM) (expo : Nat → Nat → ℚ) (g : GameM)
    (hpresent : g.bullets.any (fun x => x.id == b.id) = true)
    (hnodup : (g.enemies.map (fun e => e.id)).Nodup)
    (hcnt : g.enemies.countP (fun e => hitTest b.pos e) ≤ 1) :
    ∃ g2, Game.verify_bullet_hit_enemies b expo g = Except.ok g2 :=
  Game.verifyLoop_le_one_hit b.pos b.id expo 0 g hpresent hnodup (by simpa using hcnt)

/-- C8 corrected, witness: one live enemy within range of a present
bullet; verify_bullet_hit_enemies completes without a removal failure. -/
theorem verify_single_overlap_no_failure_witness :
    ((gameWith GameState.RUNNING [⟨1, ⟨0, 0⟩, 5, 4⟩]
        [⟨7, ⟨1, 0⟩, ⟨1, 0⟩, 150⟩]).bullets.any
      (fun x => x.id == (⟨7, ⟨1, 0⟩, ⟨1, 0⟩, 150⟩ : BulletM).id) = true) ∧
    ((gameWith GameState.RUNNING [⟨1, ⟨0, 0⟩, 5, 4⟩]
        [⟨7, ⟨1, 0⟩, ⟨1, 0⟩, 150⟩]).enemies.map (fun e => e.id)).Nodup ∧
    ((gameWith GameState.RUNNING [⟨1, ⟨0, 0⟩, 5, 4⟩]
        [⟨7, ⟨1, 0⟩, ⟨1, 0⟩, 150⟩]).enemies.countP
      (fun e => hitTest (⟨7, ⟨1, 0⟩, ⟨1, 0⟩, 150⟩ : BulletM).pos e) ≤ 1) ∧
    (Game.verify_bullet_hit_enemies ⟨7, ⟨1, 0⟩, ⟨1, 0⟩, 150⟩ (fun _ _ => 0)
        (gameWith GameState.RUNNING [⟨1, ⟨0, 0⟩, 5, 4⟩]
          [⟨7, ⟨1, 0⟩, ⟨1, 0⟩, 150⟩])).toOption ≠ none := by
  have h1 : ((gameWith GameState.RUNNING [⟨1, ⟨0, 0⟩, 5, 4⟩]
      [⟨7, ⟨1, 0⟩, ⟨1, 0⟩, 150⟩]).bullets.any
      (fun x => x.id == (⟨7, ⟨1, 0⟩, ⟨1, 0⟩, 150⟩ : BulletM).id) = true) := by decide
  have h2 : ((gameWith GameState.RUNNING [⟨1, ⟨0, 0⟩, 5, 4⟩]
      [⟨7, ⟨1, 0⟩, ⟨1, 0⟩, 150⟩]).enemies.map (fun e => e.id)).Nodup := by decide
  have h3 : ((gameWith GameState.RUNNING [⟨1, ⟨0, 0⟩, 5, 4⟩]
      [⟨7, ⟨1, 0⟩, ⟨1, 0⟩, 150⟩]).enemies.countP
      (fun e => hitTest (⟨7, ⟨1, 0⟩, ⟨1, 0⟩, 150⟩ : BulletM).pos e) ≤ 1) := by
    norm_num [gameWith, List.countP_cons, hitTest]
  refine ⟨h1, h2, h3, ?_⟩
  obtain ⟨g2, hg2⟩ := verify_single_overlap_no_failure ⟨7, ⟨1, 0⟩, ⟨1, 0⟩, 150⟩
    (fun _ _ => 0) (gameWith GameState.RUNNING [⟨1, ⟨0, 0⟩, 5, 4⟩]
      [⟨7, ⟨1, 0⟩, ⟨1, 0⟩, 150⟩]) h1 h2 h3
  rw [hg2]
  simp [Except.toOption]

theorem removeFirst_any_eq_false (p : α → Bool) : ∀ l : List α, l.countP p = 1 →
    (removeFirst p l).any p = false := by
  intro l
  induction l with
  | nil => intro _; simp [removeFirst]
  | cons a as ih =>
    intro h
    rw [List.countP_cons] at h
    by_cases hp : p a = true
    · rw [if_pos hp] at h
      have hz : as.countP p = 0 := by omega
      rw [removeFirst, if_pos hp, List.any_eq_false]
      intro x hx hpx
      exact (List.countP_eq_zero.mp hz) x hx hpx
    · rw [if_neg hp] at h
      rw [removeFirst, if_neg hp, List.any_cons, ih (by omega)]
      simp [hp]

/-- A verify pass whose bullet has already been removed raises on the
first enemy in range. -/
theorem Game.verifyLoop_absent_hit (bpos : Vec2) (bId : Nat) (expo : Nat → Nat → ℚ) :
    ∀ (i : Nat) (g : GameM),
      g.bullets.any (fun x => x.id == bId) = false →
      1 ≤ (g.enemies.drop i).countP (fun e => hitTest bpos e) →
      Game.verifyLoop bpos bId expo i g = Except.error () := by
  intro i g
  induction i, g using Game.verifyLoop.induct bpos bId expo with
  | case1 i g h e hhit u hdel =>
    intro _ _
    rw [Game.verifyLoop]
    have hhit2 : hitTest bpos g.enemies[i] = true := hhit
    simp only [dif_pos h]
    rw [if_pos (show hitTest bpos g.enemies[i] = true from hhit2), hdel]
  | case2 i g h e hhit bs hdel e2 hle ih =>
    intro habsent _
    rw [Game.del_bullet, if_neg (by simp [habsent])] at hdel
    cases hdel
  | case3 i g h e hhit bs hdel e2 hgt ih =>
    intro habsent _
    rw [Game.del_bullet, if_neg (by simp [habsent])] at hdel
    cases hdel
  | case4 i g h e hmiss ih =>
    intro habsent hcnt
    rw [Game.verifyLoop]
    have hmiss2 : ¬ hitTest bpos g.enemies[i] = true := hmiss
    simp only [dif_pos h]
    rw [if_neg (by simpa using hmiss2)]
    refine ih habsent ?_
    rw [List.drop_eq_getElem_cons h, List.countP_cons] at hcnt
    rw [if_neg (by simpa using hmiss2)] at hcnt
    simpa using hcnt
  | case5 i g h =>
    intro _ hcnt
    rw [List.drop_eq_nil_of_le (Nat.le_of_not_lt h)] at hcnt
    simp at hcnt

/-- A verify pass whose bullet occurs exactly once, with two enemies in
range from index i on and every in-range enemy having at least two lives
(so no removal reshuffles the iteration), raises on the second in-range
enemy: the bullet is removed at the first hit and list.remove fails at the
second. -/
theorem Game.verifyLoop_second_hit_errors (bpos : Vec2) (bId : Nat) (expo : Nat → Nat → ℚ) :
    ∀ (i : Nat) (g : GameM),
      g.bullets.countP (fun x => x.id == bId) = 1 →
      (∀ e ∈ g.enemies, hitTest bpos e = true → 2 ≤ e.lives) →
      2 ≤ (g.enemies.drop i).countP (fun e => hitTest bpos e) →
      Game.verifyLoop bpos bId expo i g = Except.error () := by
  intro i g
  induction i, g using Game.verifyLoop.induct bpos bId expo with
  | case1 i g h e hhit u hdel =>
    intro hcount _ _
    have hpresent : g.bullets.any (fun x => x.id == bId) = true := by
      rw [List.any_eq_true]
      exact List.countP_pos_iff.mp (by omega)
    rw [Game.del_bullet, if_pos hpresent] at hdel
    cases hdel
  | case2 i g h e hhit bs hdel e2 hle ih =>
    intro _ hall _
    have hhit2 : hitTest bpos g.enemies[i] = true := hhit
    have hle2 : g.enemies[i].lives - 1 ≤ 0 := hle
    have h2 := hall g.enemies[i] (List.getElem_mem h) hhit2
    omega
  | case3 i g h e hhit bs hdel e2 hgt ih =>
    intro hcount hall hcnt
    rw [Game.verifyLoop]
    have hhit2 : hitTest bpos g.enemies[i] = true := hhit
    have hgt2 : ¬ g.enemies[i].lives - 1 ≤ 0 := hgt
    simp only [dif_pos h, hhit2, hdel, hgt2, if_true, if_false]
    have hpresent : g.bullets.any (fun x => x.id == bId) = true := by
      rw [List.any_eq_true]
      exact List.countP_pos_iff.mp (by omega)
    have hbs : bs = removeFirst (fun x => x.id == bId) g.bullets := by
      rw [Game.del_bullet, if_pos hpresent] at hdel
      cases hdel
      rfl
    have habs : bs.any (fun x => x.id == bId) = false := by
      rw [hbs]
      exact removeFirst_any_eq_false _ g.bullets hcount
    apply Game.verifyLoop_absent_hit
    · exact habs
    · show 1 ≤ ((g.enemies.set i e2).drop (i+1)).countP (fun e => hitTest bpos e)
      rw [List.drop_set_of_lt e2 g.enemies (by omega : i < i + 1)]
      rw [List.drop_eq_getElem_cons h, List.countP_cons] at hcnt
      rw [if_pos (by simpa using hhit2)] at hcnt
      omega
  | case4 i g h e hmiss ih =>
    intro hcount hall hcnt
    rw [Game.verifyLoop]
    have hmiss2 : ¬ hitTest bpos g.enemies[i] = true := hmiss
    simp only [dif_pos h]
    rw [if_neg (by simpa using hmiss2)]
    refine ih hcount hall ?_
    rw [List.drop_eq_getElem_cons h, List.countP_cons] at hcnt
    rw [if_neg (by simpa using hmiss2)] at hcnt
    simpa using hcnt
  | case5 i g h =>
    intro _ _ hcnt
    rw [List.drop_eq_nil_of_le (Nat.le_of_not_lt h)] at hcnt
    simp at hcnt

/-- The bullet loop surfaces a ValueError raised while verifying its first
bullet (when that bullet did not expire this frame). -/
theorem Game.bulletsLoop_first_error (expo : Nat → Nat → ℚ) (g : GameM)
    (h : 0 < g.bullets.length)
    (hfired : (Bullet.updateM g.bullets[0]).2 = false)
    (herr : Game.verify_bullet_hit_enemies (Bullet.updateM g.bullets[0]).1 expo
        { g with bullets := g.bullets.set 0 (Bullet.updateM g.bullets[0]).1 } =
      Except.error ()) :
    Game.bulletsLoop expo 0 g = Except.error () := by
  rw [Game.bulletsLoop]
  rw [dif_pos h]
  dsimp only []
  have hcond : ¬ ((Bullet.updateM g.bullets[0]).2 = true) := by simp [hfired]
  split
  · rename_i u heq
    rw [if_neg hcond] at heq
  · rename_i bs heq
    rw [if_neg hcond] at heq
    injection heq with heqbs
    subst heqbs
    split
    · rename_i u heq2
      cases u
      rfl
    · rename_i g3 heq2
      rw [herr] at heq2
      cases heq2

/-- Player state after one quiet Player.update from rest: only the manual
gravity force has accumulated. -/
def pAfter : PlayerM :=
  { pos := ⟨0, 0⟩, vel := ⟨0, 0⟩, force := ⟨0, -200⟩, mass := 1, can_jump := false }

/-- Mid-frame state of the double-hit scenario: two large live enemies and
one bullet about to overlap both. -/
def gTwoHits : GameM :=
  { state := GameState.RUNNING, player := pAfter,
    enemies := [⟨1, ⟨10, 0⟩, 16, 4⟩, ⟨2, ⟨30, 0⟩, 25, 4⟩],
    bullets := [⟨7, ⟨5, 0⟩, ⟨1, 0⟩, 150⟩], particles := [], nextId := 50 }

/-- C8 counterexample: a bullet whose position after its update lies
within the radii of two live enemies triggers Game.del_bullet twice in the
same Game.update pass; the second list removal fails (Python ValueError),
aborting the update. -/
theorem double_hit_bullet_removal_fails :
    (Game.update inpQuiet (gameWith GameState.RUNNING
      [⟨1, ⟨10, 0⟩, 16, 4⟩, ⟨2, ⟨30, 0⟩, 25, 4⟩]
      [⟨7, ⟨5, 0⟩, ⟨1, 0⟩, 150⟩])).toOption = none := by
  have hstep : Game.stepPhase inpQuiet (gameWith GameState.RUNNING
      [⟨1, ⟨10, 0⟩, 16, 4⟩, ⟨2, ⟨30, 0⟩, 25, 4⟩] [⟨7, ⟨5, 0⟩, ⟨1, 0⟩, 150⟩]) =
      gameWith GameState.RUNNING
        [⟨1, ⟨10, 0⟩, 16, 4⟩, ⟨2, ⟨30, 0⟩, 25, 4⟩] [⟨7, ⟨5, 0⟩, ⟨1, 0⟩, 150⟩] := by
    simp [Game.stepPhase, Game.foldMsgs, gameWith, inpQuiet]
  have hpp : Game.playerPhase inpQuiet (gameWith GameState.RUNNING
      [⟨1, ⟨10, 0⟩, 16, 4⟩, ⟨2, ⟨30, 0⟩, 25, 4⟩] [⟨7, ⟨5, 0⟩, ⟨1, 0⟩, 150⟩]) =
      gTwoHits := by
    norm_num [Game.playerPhase, Player.update, gameWith, pQuiet, inpQuiet, Vec2.add_def,
      Player.JUMP_SPEED, gTwoHits, pAfter]
    decide
  have hupd : Bullet.updateM (⟨7, ⟨5, 0⟩, ⟨1, 0⟩, 150⟩ : BulletM) =
      (⟨7, ⟨6, 0⟩, ⟨1, 0⟩, 149⟩, false) := by
    norm_num [Bullet.updateM, Vec2.add_def]
  have hg0 : gTwoHits.bullets[0] = (⟨7, ⟨5, 0⟩, ⟨1, 0⟩, 150⟩ : BulletM) := rfl
  have hverr : Game.verify_bullet_hit_enemies (⟨7, ⟨6, 0⟩, ⟨1, 0⟩, 149⟩ : BulletM)
      inpQuiet.expo { gTwoHits with bullets := [⟨7, ⟨6, 0⟩, ⟨1, 0⟩, 149⟩] } =
      Except.error () := by
    apply Game.verifyLoop_second_hit_errors
    · decide
    · intro e he _
      rcases List.mem_cons.mp he with rfl | he2
      · norm_num
      · rcases List.mem_cons.mp he2 with rfl | he3
        · norm_num
        · cases he3
    · norm_num [List.countP_cons, hitTest, gTwoHits]
  have hble : Game.bulletsLoop inpQuiet.expo 0 gTwoHits = Except.error () := by
    apply Game.bulletsLoop_first_error
    · rw [hg0, hupd]
    · rw [hg0, hupd]
      exact hverr
  rw [Game.update, hstep, hpp, hble]
  rfl

theorem list_set_getElem_self {α : Type} (l : List α) (i : Nat) (h : i < l.length) :
    l.set i (l[i]) = l := by
  apply List.ext_getElem
  · simp
  · intro j h1 h2
    by_cases hj : j = i
    · subst hj
      rw [List.getElem_set_self]
    · rw [List.getElem_set_ne (by omega)]

theorem map_id_set_same (l : List EnemyM) (i : Nat) (h : i < l.length) (x : EnemyM)
    (hx : x.id = l[i].id) :
    (l.set i x).map (fun e => e.id) = l.map (fun e => e.id) := by
  rw [List.map_set]
  have hlen : i < (l.map (fun e => e.id)).length := by simpa using h
  have hb : x.id = (l.map (fun e => e.id))[i] := by
    rw [List.getElem_map]
    exact hx
  rw [hb, list_set_getElem_self (l.map (fun e => e.id)) i hlen]

theorem mem_split_at {α : Type} (l : List α) (i : Nat) (h : i < l.length) (e : α)
    (he : e ∈ l) : e ∈ l.take i ∨ e = l[i] ∨ e ∈ l.drop (i + 1) := by
  conv at he => rw [← List.take_append_drop i l]
  rcases List.mem_append.mp he with h1 | h2
  · exact Or.inl h1
  · rw [List.drop_eq_getElem_cons h] at h2
    rcases List.mem_cons.mp h2 with h3 | h4
    · exact Or.inr (Or.inl h3)
    · exact Or.inr (Or.inr h4)

theorem mem_set_of_ne {α : Type} (l : List α) (i : Nat) (h : i < l.length) (x e : α)
    (he : e ∈ l) (hne : e ≠ l[i]) : e ∈ l.set i x := by
  rw [List.set_eq_take_cons_drop x h]
  rcases mem_split_at l i h e he with h1 | h2 | h3
  · exact List.mem_append.mpr (Or.inl h1)
  · exact absurd h2 hne
  · exact List.mem_append.mpr (Or.inr (List.mem_cons.mpr (Or.inr h3)))

theorem mem_eraseIdx_of_ne {α : Type} (l : List α) (i : Nat) (h : i < l.length) (e : α)
    (he : e ∈ l) (hne : e ≠ l[i]) : e ∈ l.eraseIdx i := by
  rw [List.eraseIdx_eq_take_drop_succ]
  rcases mem_split_at l i h e he with h1 | h2 | h3
  · exact List.mem_append.mpr (Or.inl h1)
  · exact absurd h2 hne
  · exact List.mem_append.mpr (Or.inr h3)

theorem take_set_eq {α : Type} (l : List α) (i : Nat) (x : α) :
    (l.set i x).take i = l.take i := by
  apply List.ext_getElem
  · simp
  · intro j h1 h2
    have hj : j < i := by
      have := h1
      simp [List.length_take] at this
      omega
    rw [List.getElem_take, List.getElem_take, List.getElem_set_ne (by omega)]

theorem eraseIdx_take_eq {α : Type} (l : List α) (i : Nat) (h : i < l.length) :
    (l.eraseIdx i).take i = l.take i := by
  rw [List.eraseIdx_eq_take_drop_succ, List.take_append_eq_append_take]
  have hlen : (l.take i).length = i := by rw [List.length_take]; omega
  rw [List.take_of_length_le (by rw [hlen])]
  rw [hlen]
  simp

theorem mem_take_set {α : Type} (l : List α) (i : Nat) (h : i < l.length) (x : α) :
    x ∈ (l.set i x).take (i + 1) := by
  rw [List.set_eq_take_cons_drop x h, List.take_append_eq_append_take]
  have hlen : (l.take i).length = i := by rw [List.length_take]; omega
  rw [hlen]
  have hone : i + 1 - i = 1 := by omega
  rw [hone]
  refine List.mem_append.mpr (Or.inr ?_)
  simp

theorem take_succ_take_eq {α : Type} {l1 l2 : List α} (i : Nat)
    (h : l1.take (i + 1) = l2.take (i + 1)) : l1.take i = l2.take i := by
  have h1 : (l1.take (i + 1)).take i = l1.take i := by
    rw [List.take_take]
    congr 1
    omega
  have h2 : (l2.take (i + 1)).take i = l2.take i := by
    rw [List.take_take]
    congr 1
    omega
  rw [← h1, h, h2]

/-- Effect of one verify pass on the enemies from index i on: all
remaining enemies keep 1..4 lives, an enemy disappears only if it had
exactly one life (the hit made it 0 and del_enemy removed it at once),
and the enemies before index i are untouched. -/
theorem Game.verifyLoop_lives (bpos : Vec2) (bId : Nat) (expo : Nat → Nat → ℚ) :
    ∀ (i : Nat) (g : GameM),
      (∀ e ∈ g.enemies, 1 ≤ e.lives ∧ e.lives ≤ 4) →
      (g.enemies.map (fun e => e.id)).Nodup →
      ∀ g2, Game.verifyLoop bpos bId expo i g = Except.ok g2 →
        (∀ e ∈ g2.enemies, 1 ≤ e.lives ∧ e.lives ≤ 4) ∧
        (∀ e ∈ g.enemies, (∀ x ∈ g2.enemies, x.id ≠ e.id) → e.lives = 1) ∧
        g2.enemies.take i = g.enemies.take i := by
  intro i g
  induction i, g using Game.verifyLoop.induct bpos bId expo with
  | case1 i g h e hhit u hdel =>
    intro hinv hnodup g2 hrun
    rw [Game.verifyLoop] at hrun
    have hhit2 : hitTest bpos g.enemies[i] = true := hhit
    simp [dif_pos h, hhit2, hdel] at hrun
  | case2 i g h e hhit bs hdel e2 hle ih =>
    intro hinv hnodup g2 hrun
    rw [Game.verifyLoop] at hrun
    have hhit2 : hitTest bpos g.enemies[i] = true := hhit
    have hle2 : g.enemies[i].lives - 1 ≤ 0 := hle
    simp [dif_pos h, hhit2, hdel, hle2] at hrun
    have hargE : (Game.del_enemy e2.id (expo e2.id)
        { g with bullets := bs, enemies := g.enemies.set i e2 }).enemies =
        g.enemies.eraseIdx i := by
      show removeFirst (fun x => x.id == e2.id) (g.enemies.set i e2) = _
      exact removeFirst_set_self g.enemies i h e2 rfl hnodup
    have hinvA : ∀ x ∈ (Game.del_enemy e2.id (expo e2.id)
        { g with bullets := bs, enemies := g.enemies.set i e2 }).enemies,
        1 ≤ x.lives ∧ x.lives ≤ 4 := by
      rw [hargE]
      intro x hx
      exact hinv x ((List.eraseIdx_sublist g.enemies i).subset hx)
    have hnodA : ((Game.del_enemy e2.id (expo e2.id)
        { g with bullets := bs, enemies := g.enemies.set i e2 }).enemies.map
          (fun e => e.id)).Nodup := by
      rw [hargE]
      exact hnodup.sublist ((List.eraseIdx_sublist g.enemies i).map _)
    obtain ⟨P1, P2, P3⟩ := ih hinvA hnodA g2 hrun
    have hL : g.enemies[i].lives = 1 := by
      have := hinv g.enemies[i] (List.getElem_mem h)
      omega
    refine ⟨P1, ?_, ?_⟩
    · intro e he habs
      by_cases hid : e.id = g.enemies[i].id
      · have heq : e = g.enemies[i] :=
          List.inj_on_of_nodup_map hnodup he (List.getElem_mem h) hid
        rw [heq]
        exact hL
      · have hneq : e ≠ g.enemies[i] := fun hc => hid (by rw [hc])
        have heA : e ∈ (Game.del_enemy e2.id (expo e2.id)
            { g with bullets := bs, enemies := g.enemies.set i e2 }).enemies := by
          rw [hargE]
          exact mem_eraseIdx_of_ne g.enemies i h e he hneq
        exact P2 e heA habs
    · have t1 := take_succ_take_eq i P3
      rw [t1, hargE, eraseIdx_take_eq g.enemies i h]
  | case3 i g h e hhit bs hdel e2 hgt ih =>
    intro hinv hnodup g2 hrun
    rw [Game.verifyLoop] at hrun
    have hhit2 : hitTest bpos g.enemies[i] = true := hhit
    have hgt2 : ¬ g.enemies[i].lives - 1 ≤ 0 := hgt
    simp [dif_pos h, hhit2, hdel, hgt2] at hrun
    have hLb := hinv g.enemies[i] (List.getElem_mem h)
    have hinvA : ∀ x ∈ g.enemies.set i e2, 1 ≤ x.lives ∧ x.lives ≤ 4 := by
      intro x hx
      rcases List.mem_or_eq_of_mem_set hx with hmem | rfl
      · exact hinv x hmem
      · have hv : e2.lives = g.enemies[i].lives - 1 := rfl
        omega
    have hnodA : ((g.enemies.set i e2).map (fun e => e.id)).Nodup := by
      rw [map_id_set_same g.enemies i h e2 rfl]
      exact hnodup
    obtain ⟨P1, P2, P3⟩ := ih hinvA hnodA g2 hrun
    have P3b : g2.enemies.take (i + 1) = (g.enemies.set i e2).take (i + 1) := P3
    refine ⟨P1, ?_, ?_⟩
    · intro e he habs
      by_cases hid : e.id = g.enemies[i].id
      · exfalso
        have hmem2 : e2 ∈ g2.enemies := by
          have h1 : e2 ∈ (g.enemies.set i e2).take (i + 1) := mem_take_set g.enemies i h e2
          rw [← P3b] at h1
          exact List.take_subset _ _ h1
        exact habs e2 hmem2 (by rw [hid])
      · have hneq : e ≠ g.enemies[i] := fun hc => hid (by rw [hc])
        exact P2 e (mem_set_of_ne g.enemies i h e2 e he hneq) habs
    · have t1 := take_succ_take_eq i P3b
      rw [t1, take_set_eq]
  | case4 i g h e hmiss ih =>
    intro hinv hnodup g2 hrun
    rw [Game.verifyLoop] at hrun
    have hmiss2 : ¬ hitTest bpos g.enemies[i] = true := hmiss
    simp [dif_pos h, hmiss2] at hrun
    obtain ⟨P1, P2, P3⟩ := ih hinv hnodup g2 hrun
    exact ⟨P1, P2, take_succ_take_eq i P3⟩
  | case5 i g h =>
    intro hinv hnodup g2 hrun
    rw [Game.verifyLoop] at hrun
    rw [dif_neg h] at hrun
    cases hrun
    exact ⟨hinv, fun e he habs => absurd rfl (habs e he), rfl⟩

/-- C5: across a verify_bullet_hit_enemies pass, enemy lives stay within
[0,4] — every enemy still in the collection has 1 to 4 lives, so none is
left at 0 or pushed below 0 — and an enemy leaves the collection only by
the hit that took its last life: any enemy of the pre-state whose id is
gone from the post-state had exactly 1 life (the hit made it 0 and
del_enemy removed it immediately).  Hypotheses: the live-enemy invariant
held before the pass and enemy ids are pairwise distinct, both true from
construction. -/
theorem enemy_lives_bounds_and_removal (b : BulletM) (expo : Nat → Nat → ℚ)
    (g g2 : GameM)
    (hinv : ∀ e ∈ g.enemies, 1 ≤ e.lives ∧ e.lives ≤ 4)
    (hnodup : (g.enemies.map (fun e => e.id)).Nodup)
    (hrun : Game.verify_bullet_hit_enemies b expo g = Except.ok g2) :
    (∀ e ∈ g2.enemies, 1 ≤ e.lives ∧ e.lives ≤ 4) ∧
    (∀ e ∈ g.enemies, (∀ x ∈ g2.enemies, x.id ≠ e.id) → e.lives = 1) := by
  have hx := Game.verifyLoop_lives b.pos b.id expo 0 g hinv hnodup g2 hrun
  exact ⟨hx.1, hx.2.1⟩

/-- C5, witness: a two-life enemy hit once keeps one life and stays in the
collection; the bullet is removed. -/
theorem enemy_lives_bounds_and_removal_witness :
    Game.verify_bullet_hit_enemies ⟨7, ⟨1, 0⟩, ⟨1, 0⟩, 150⟩ (fun _ _ => 0)
      (gameWith GameState.RUNNING [⟨1, ⟨0, 0⟩, 5, 2⟩] [⟨7, ⟨1, 0⟩, ⟨1, 0⟩, 150⟩]) =
      Except.ok (gameWith GameState.RUNNING [⟨1, ⟨0, 0⟩, 5, 1⟩] []) ∧
    (1 ≤ (⟨1, ⟨0, 0⟩, 5, 1⟩ : EnemyM).lives ∧ (⟨1, ⟨0, 0⟩, 5, 1⟩ : EnemyM).lives ≤ 4) := by
  have hEval : Game.verify_bullet_hit_enemies ⟨7, ⟨1, 0⟩, ⟨1, 0⟩, 150⟩ (fun _ _ => 0)
      (gameWith GameState.RUNNING [⟨1, ⟨0, 0⟩, 5, 2⟩] [⟨7, ⟨1, 0⟩, ⟨1, 0⟩, 150⟩]) =
      Except.ok (gameWith GameState.RUNNING [⟨1, ⟨0, 0⟩, 5, 1⟩] []) := by
    rw [Game.verify_bullet_hit_enemies, Game.verifyLoop]
    norm_num [hitTest, Game.del_bullet, removeFirst, gameWith, pQuiet]
    rw [Game.verifyLoop]
    norm_num [gameWith, pQuiet]
  refine ⟨hEval, ?_⟩
  exact (enemy_lives_bounds_and_removal ⟨7, ⟨1, 0⟩, ⟨1, 0⟩, 150⟩ (fun _ _ => 0)
      (gameWith GameState.RUNNING [⟨1, ⟨0, 0⟩, 5, 2⟩] [⟨7, ⟨1, 0⟩, ⟨1, 0⟩, 150⟩])
      (gameWith GameState.RUNNING [⟨1, ⟨0, 0⟩, 5, 1⟩] [])
      (by decide) (by decide) hEval).1 ⟨1, ⟨0, 0⟩, 5, 1⟩ (by simp [gameWith])
